import Mathlib

/-!
# BaseBallPick3 — scoring and state-lifecycle engine, shallow embedding

Shallow embedding of the core of the BaseBallPick3 repository:
the pure scoring/boost arithmetic (`src/utils/scoringUtils.ts`),
boost normalization (`src/utils/generalUtils.ts`), the drafting time
gate (`src/utils/dateUtils.ts`), app-state load/expiry
(`src/storage/index.ts`) and history aggregation (`src/history/index.ts`).

JavaScript numbers are modelled as exact rationals (`ℚ`) where fractional
values can occur and as `ℤ` where the code only ever holds integers;
`Math.round` is modelled as round-half-up (`⌊q + 1/2⌋`), which is its
behaviour on exact values.  JavaScript records (`Record<number, number>`)
are modelled as functions `ℕ → Option ℚ` (`none` = key absent).  Async
storage I/O is modelled by explicit state passing: each function takes the
stored value as an argument and returns the result together with the new
stored value.
-/

/-- JavaScript `Math.round`: round half toward positive infinity. -/
def jsRound (q : ℚ) : ℤ := ⌊q + 1/2⌋

/-- `ScoreBreakdown` (src/types/index.ts): the 14 scoring counters. -/
structure ScoreBreakdown where
  singles : ℤ
  doubles : ℤ
  triples : ℤ
  hr_solo : ℤ
  hr_2r : ℤ
  hr_3r : ℤ
  hr_gs : ℤ
  walks : ℤ
  hbp : ℤ
  rbi_non_hr : ℤ
  runs_non_hr : ℤ
  strikeouts : ℤ
  gidp : ℤ
  fielders_choice : ℤ
deriving DecidableEq, Repr

/-- The point table `PTS` (src/utils/scoringUtils.ts). -/
structure PtsTable where
  SINGLE : ℤ := 10
  DOUBLE : ℤ := 20
  TRIPLE : ℤ := 30
  HR_SOLO : ℤ := 40
  HR_2R : ℤ := 45
  HR_3R : ℤ := 50
  HR_GS : ℤ := 80
  WALK : ℤ := 5
  HBP : ℤ := 5
  RBI_NON_HR : ℤ := 15
  RUN_NON_HR : ℤ := 15
  K : ℤ := -5
  GIDP : ℤ := -10
  FC : ℤ := 2

/-- The constant `PTS` object. -/
def PTS : PtsTable := {}

/-- `applyBoost` (src/utils/scoringUtils.ts):
`basePoints > 0 ? Math.round(basePoints * boostPercent) : basePoints`. -/
def applyBoost (basePoints boostPercent : ℚ) : ℚ :=
  if basePoints > 0 then (jsRound (basePoints * boostPercent) : ℚ) else basePoints

/-- `calculateBasePoints` (src/utils/scoringUtils.ts): the weighted sum of
the 14 breakdown counters against the `PTS` table. -/
def calculateBasePoints (breakdown : ScoreBreakdown) : ℤ :=
  breakdown.singles * PTS.SINGLE +
  breakdown.doubles * PTS.DOUBLE +
  breakdown.triples * PTS.TRIPLE +
  breakdown.hr_solo * PTS.HR_SOLO +
  breakdown.hr_2r * PTS.HR_2R +
  breakdown.hr_3r * PTS.HR_3R +
  breakdown.hr_gs * PTS.HR_GS +
  breakdown.walks * PTS.WALK +
  breakdown.hbp * PTS.HBP +
  breakdown.rbi_non_hr * PTS.RBI_NON_HR +
  breakdown.runs_non_hr * PTS.RUN_NON_HR +
  breakdown.strikeouts * PTS.K +
  breakdown.gidp * PTS.GIDP +
  breakdown.fielders_choice * PTS.FC

/-- `isDraftingAllowed` (src/utils/pure-dateUtils.ts).  The `gameDate`
string and `Date` parsing are external; the game date argument is modelled
as `none` (no `gameDate` given), `some none` (given but unparseable, i.e.
`getTime()` is `NaN`) or `some (some t)` (parsed to epoch milliseconds
`t`).  `currentTime` is epoch milliseconds. -/
def isDraftingAllowed (gameDate : Option (Option ℤ)) (currentTime : ℤ) : Bool :=
  match gameDate with
  | none => true
  | some none => true
  | some (some gameStart) =>
      decide (currentTime < gameStart + 5 * 60 * 1000)

/-- A JavaScript `Record<number, number>`: `none` = key absent. -/
abbrev Boosters := ℕ → Option ℚ

/-- Record read at a possibly-undefined key, with `?? 0` defaulting:
`m[k] ?? 0`. -/
def bGetD (m : Boosters) (k : Option ℕ) : ℚ := (k.bind m).getD 0

/-- Record write `m[k] = v` at a possibly-undefined key.  A JavaScript
write at key `undefined` creates the string key `"undefined"`, which no
numeric-key read can observe; it is modelled as a no-op. -/
def bSet (m : Boosters) (k : Option ℕ) (v : ℚ) : Boosters :=
  match k with
  | none => m
  | some n => fun i => if i = n then some v else m i

/-- The split of `remaining = 100 - clamped` over the two non-target picks
in `normalizeBoostersToHundred` (src/utils/generalUtils.ts lines 36-45):
even floor/rest split when the others' current sum is `≤ 0`, otherwise
proportional with the first share rounded and the second taking the exact
remainder. -/
def normalizeOthers (remaining : ℤ) (c1 c2 : ℚ) : ℤ × ℤ :=
  if c1 + c2 ≤ 0 then
    (⌊(remaining : ℚ) / 2⌋, remaining - ⌊(remaining : ℚ) / 2⌋)
  else
    (jsRound ((remaining : ℚ) * c1 / (c1 + c2)),
     remaining - jsRound ((remaining : ℚ) * c1 / (c1 + c2)))

/-- `normalizeBoostersToHundred` (src/utils/generalUtils.ts).  The source's
local `cur` object is dead code (it is never read after being built; the
result is built from `currentBoosters`) and is omitted.  `Math.floor` of a
halved non-negative integer and `Math.round` of the proportional share are
`⌊·⌋` and `jsRound`. -/
def normalizeBoostersToHundred (targetId : ℕ) (rawValue : ℚ)
    (pickedIds : List ℕ) (currentBoosters : Boosters) : Boosters :=
  match pickedIds with
  | [a, b, c] =>
      let clamped : ℤ := max 0 (min 100 (jsRound rawValue))
      let others := [a, b, c].filter (fun id => id != targetId)
      let n := normalizeOthers (100 - clamped)
        (bGetD currentBoosters others[0]?) (bGetD currentBoosters others[1]?)
      bSet (bSet (bSet currentBoosters (some targetId) (clamped : ℚ))
          others[0]? ((n.1 : ℚ)))
        others[1]? ((n.2 : ℚ))
  | _ => currentBoosters

/-- `validateBoostersComplete` (src/utils/generalUtils.ts).
`Number.isFinite(boosters[id])` is false exactly when the key is absent
(value `undefined`), every stored rational being finite. -/
def validateBoostersComplete (pickedIds : List ℕ) (boosters : Boosters) : Bool :=
  let boosterUsed := pickedIds.foldl (fun sum id => sum + (boosters id).getD 0) 0
  pickedIds.length == 3 && boosterUsed == 100 &&
    pickedIds.all (fun id => (boosters id).isSome)

/-- `OutcomeCode` (src/types/index.ts).  `oneB`, `twoB`, `threeB` stand for
the string codes `1B`, `2B`, `3B`. -/
inductive OutcomeCode where
  | OUT | oneB | twoB | threeB | HR | BB | HBP | K | GIDP | FC | RBI | R
deriving DecidableEq, Repr

/-- The raw batting stats consumed by `buildScoreFromStatsAndPlays`
(src/api/index.ts): every read is `Number(stats?.field || 0)`, so an
absent field is identified with 0. -/
structure RawStats where
  hits : ℤ := 0
  doubles : ℤ := 0
  triples : ℤ := 0
  homeRuns : ℤ := 0
  baseOnBalls : ℤ := 0
  strikeOuts : ℤ := 0
  groundIntoDoublePlay : ℤ := 0
  rbi : ℤ := 0
  runs : ℤ := 0
deriving DecidableEq, Repr

/-- A play entry from the live feed; the api module only ever reads
`play.matchup.batter.id`. -/
structure Play where
  batterId : ℤ
deriving DecidableEq, Repr

/-- The record returned by `buildScoreFromStatsAndPlays`. -/
structure BuildScoreResult where
  breakdown : ScoreBreakdown
  points : ℤ
  outcomes : List OutcomeCode
deriving DecidableEq, Repr

/-- `buildScoreFromStatsAndPlays` (src/api/index.ts lines 186-256).  The
`plays` parameter is unused by the source body as well.  Home runs are
bucketed into one class by the average RBI per HR; note the source's
`hrRBIs` multiplies the per-class credit sum by `totalHRs` once more
(line 240). -/
def buildScoreFromStatsAndPlays (stats : RawStats) (plays : List Play) :
    BuildScoreResult :=
  let singles := stats.hits - stats.doubles - stats.triples - stats.homeRuns
  let totalHRs := stats.homeRuns
  let totalRBIs := stats.rbi
  let totalRuns := stats.runs
  -- (hr_solo, hr_2r, hr_3r, hr_gs)
  let hrClass : ℤ × ℤ × ℤ × ℤ :=
    if 0 < totalHRs then
      let avgRBIPerHR : ℚ := (totalRBIs : ℚ) / (totalHRs : ℚ)
      if 3.5 ≤ avgRBIPerHR then (0, 0, 0, totalHRs)
      else if 2.5 ≤ avgRBIPerHR then (0, 0, totalHRs, 0)
      else if 1.5 ≤ avgRBIPerHR then (0, totalHRs, 0, 0)
      else (totalHRs, 0, 0, 0)
    else (0, 0, 0, 0)
  let hrRBIs := totalHRs *
    (hrClass.2.2.2 * 4 + hrClass.2.2.1 * 3 + hrClass.2.1 * 2 + hrClass.1 * 1)
  let breakdown : ScoreBreakdown :=
    { singles := singles
      doubles := stats.doubles
      triples := stats.triples
      hr_solo := hrClass.1
      hr_2r := hrClass.2.1
      hr_3r := hrClass.2.2.1
      hr_gs := hrClass.2.2.2
      walks := stats.baseOnBalls
      hbp := 0
      rbi_non_hr := max 0 (totalRBIs - hrRBIs)
      runs_non_hr := totalRuns
      strikeouts := stats.strikeOuts
      gidp := stats.groundIntoDoublePlay
      fielders_choice := 0 }
  let outcomes : List OutcomeCode :=
    List.replicate singles.toNat .oneB ++
    List.replicate stats.doubles.toNat .twoB ++
    List.replicate stats.triples.toNat .threeB ++
    List.replicate (hrClass.1 + hrClass.2.1 + hrClass.2.2.1 + hrClass.2.2.2).toNat .HR ++
    List.replicate stats.baseOnBalls.toNat .BB ++
    List.replicate stats.strikeOuts.toNat .K ++
    List.replicate stats.groundIntoDoublePlay.toNat .GIDP
  { breakdown := breakdown
    points := calculateBasePoints breakdown
    outcomes := outcomes }

/-- `'home' | 'away'` (src/types/index.ts). -/
inductive Side where
  | home | away
deriving DecidableEq, Repr

/-- `Batter` (src/types/index.ts). -/
structure Batter where
  id : ℕ
  name : String
  mlbId : Option ℕ := none
deriving DecidableEq, Repr

/-- `PlayerPickResult` (src/types/index.ts). -/
structure PlayerPickResult where
  batterId : ℕ
  outcomes : List OutcomeCode
  points : ℤ
  breakdown : Option ScoreBreakdown := none
  boost : Option ℚ := none
  basePoints : Option ℤ := none
deriving DecidableEq, Repr

/-- `Player` (src/types/index.ts). -/
structure Player where
  id : ℕ
  name : String
  picks : List ℕ
  results : Option (List PlayerPickResult) := none
  score : Option ℤ := none
deriving DecidableEq, Repr

/-- `LineupInfo` (src/types/index.ts). -/
structure LineupInfo where
  gamePk : ℕ
  opponent : String
  side : Side
  firstPitchLocal : Option String := none
  gameDate : Option String := none
deriving DecidableEq, Repr

/-- A final score `{twins, opponent}` (src/types/index.ts). -/
structure FinalScore where
  twins : ℤ
  opponent : ℤ
deriving DecidableEq, Repr

/-- One entry of `HistoricalPlayer.picks` (src/types/index.ts). -/
structure HistoricalPick where
  batterId : ℕ
  batterName : String
  mlbId : Option ℕ := none
  points : ℤ
  basePoints : ℤ
  boost : ℚ
  breakdown : Option ScoreBreakdown := none
deriving DecidableEq, Repr

/-- `HistoricalPlayer` (src/types/index.ts). -/
structure HistoricalPlayer where
  name : String
  picks : List HistoricalPick
  totalScore : ℤ
deriving DecidableEq, Repr

/-- `HistoricalGame` (src/types/index.ts). -/
structure HistoricalGame where
  id : String
  date : String
  gamePk : ℕ
  opponent : String
  side : Side
  finalScore : Option FinalScore := none
  gameStatus : String
  players : List HistoricalPlayer
  completedAt : ℤ
deriving DecidableEq, Repr

/-- The `stats` record of `HistoricalData` (src/types/index.ts).
`averageScore` is a rounded-to-1-decimal rational. -/
structure HistStats where
  totalGames : ℕ
  averageScore : ℚ
  bestScore : ℤ
  bestGame : Option String := none
  favoritePlayer : Option String := none
deriving DecidableEq, Repr

/-- `HistoricalData` (src/types/index.ts). -/
structure HistoricalData where
  games : List HistoricalGame
  stats : HistStats
  lastUpdated : ℤ
deriving DecidableEq, Repr

/-- The `allPlayerScores` array built by `updateHistoricalStats`
(src/history/index.ts lines 194-214): every player's `totalScore` across
every game, in iteration order. -/
def allPlayerScores (games : List HistoricalGame) : List ℤ :=
  games.flatMap (fun g => g.players.map (fun p => p.totalScore))

/-- The `bestScore`/`bestGameId` accumulation of `updateHistoricalStats`
(src/history/index.ts lines 195-206): starts at `(0, undefined)` and
updates on strict improvement (`player.totalScore > bestScore`). -/
def bestFold (games : List HistoricalGame) : ℤ × Option String :=
  games.foldl
    (fun acc g =>
      g.players.foldl
        (fun acc2 p =>
          if acc2.1 < p.totalScore then (p.totalScore, some g.id) else acc2)
        acc)
    (0, none)

/-- `playerPickCounts[playerName] = (playerPickCounts[playerName] || 0) + 1`
on a JavaScript object, whose string keys keep insertion order; modelled as
an association list with append-on-new-key. -/
def bumpCount (m : List (String × ℕ)) (k : String) : List (String × ℕ) :=
  if m.any (fun e => e.1 == k) then
    m.map (fun e => if e.1 == k then (e.1, e.2 + 1) else e)
  else m ++ [(k, 1)]

/-- The `playerPickCounts` object of `updateHistoricalStats`
(src/history/index.ts lines 197, 208-212). -/
def pickCounts (games : List HistoricalGame) : List (String × ℕ) :=
  games.foldl
    (fun m g =>
      g.players.foldl
        (fun m2 p => p.picks.foldl (fun m3 pk => bumpCount m3 pk.batterName) m2)
        m)
    []

/-- The `favoritePlayer` selection of `updateHistoricalStats`
(src/history/index.ts lines 221-228): iterate the counts in insertion
order, keeping the first strict maximum. -/
def favoriteOf (counts : List (String × ℕ)) : Option String × ℕ :=
  counts.foldl (fun acc e => if acc.2 < e.2 then (some e.1, e.2) else acc)
    (none, 0)

/-- `updateHistoricalStats` (src/history/index.ts lines 181-237), modelled
as a pure update of the `stats` field.  `Math.round(x*10)/10` is
`jsRound (x*10)/10`; the JavaScript `0/0 = NaN` average for a games list
without any player is modelled as `0` (Lean division by zero). -/
def updateHistoricalStats (data : HistoricalData) : HistoricalData :=
  if data.games = [] then
    { data with
      stats :=
        { totalGames := 0, averageScore := 0, bestScore := 0,
          bestGame := none, favoritePlayer := none } }
  else
    let best := bestFold data.games
    let totalScore : ℤ := (allPlayerScores data.games).foldl (fun sum score => sum + score) 0
    let averageScore : ℚ :=
      (jsRound ((totalScore : ℚ) / ((allPlayerScores data.games).length : ℚ) * 10) : ℚ) / 10
    { data with
      stats :=
        { totalGames := data.games.length
          averageScore := averageScore
          bestScore := best.1
          bestGame := best.2
          favoritePlayer := (favoriteOf (pickCounts data.games)).1 } }

/-- `new Date(s).toISOString().split('T')[0]` for a UTC ISO-8601 input
string: its leading `YYYY-MM-DD` part. -/
def isoDatePart (s : String) : String := s.take 10

/-- The `gameDate` computed by `addGameToHistory` (src/history/index.ts
line 63): the lineup's game date, else today's date. -/
def computedGameDate (lineupInfo : LineupInfo) (today : String) : String :=
  match lineupInfo.gameDate with
  | some s => isoDatePart s
  | none => today

/-- The `gameId` computed by `addGameToHistory` (src/history/index.ts
line 64): `` `${lineupInfo.gamePk}_${gameDate}` ``. -/
def computedGameId (lineupInfo : LineupInfo) (today : String) : String :=
  toString lineupInfo.gamePk ++ "_" ++ computedGameDate lineupInfo today

/-- The per-player transformation of `addGameToHistory`
(src/history/index.ts lines 70-85).  `batter?.name || `Batter ${id}``
falls back when the batter is unresolved or its name is the empty string
(the only falsy resolved name); `|| 0` on numbers is `getD 0`. -/
def buildHistoricalPlayer (batters : List Batter) (p : Player) :
    HistoricalPlayer :=
  { name := p.name
    picks := (p.results.getD []).map (fun r =>
      let batter := batters.find? (fun bt => bt.id == r.batterId)
      { batterId := r.batterId
        batterName :=
          match batter with
          | some bt =>
              if bt.name = "" then "Batter " ++ toString r.batterId else bt.name
          | none => "Batter " ++ toString r.batterId
        mlbId := batter.bind (fun bt => bt.mlbId)
        points := r.points
        basePoints := r.basePoints.getD 0
        boost := r.boost.getD 0
        breakdown := r.breakdown })
    totalScore := p.score.getD 0 }

/-- The `historicalGame` record built by `addGameToHistory`
(src/history/index.ts lines 87-97). -/
def buildHistoricalGame (players : List Player) (batters : List Batter)
    (lineupInfo : LineupInfo) (gameStatus : String)
    (finalScore : Option FinalScore) (now : ℤ) (today : String) :
    HistoricalGame :=
  { id := computedGameId lineupInfo today
    date := computedGameDate lineupInfo today
    gamePk := lineupInfo.gamePk
    opponent := lineupInfo.opponent
    side := lineupInfo.side
    finalScore := finalScore
    gameStatus := gameStatus
    players := players.map (buildHistoricalPlayer batters)
    completedAt := now }

/-- The upsert step of `addGameToHistory` (src/history/index.ts lines
67, 99-107): replace in place at the first index whose `id` matches, else
append. -/
def upsertGame (games : List HistoricalGame) (g : HistoricalGame) :
    List HistoricalGame :=
  match games.findIdx? (fun x => x.id == g.id) with
  | some i => games.set i g
  | none => games ++ [g]

/-- `addGameToHistory` (src/history/index.ts lines 52-119), with storage
I/O made explicit: `historicalData` is the loaded store content and the
returned value is what `saveHistoricalData` writes (which stamps
`lastUpdated = Date.now()`).  The sort at line 110 is the stable
descending-by-date sort (ISO `YYYY-MM-DD` dates compare chronologically as
strings). -/
def addGameToHistory (historicalData : HistoricalData)
    (players : List Player) (batters : List Batter) (lineupInfo : LineupInfo)
    (gameStatus : String) (finalScore : Option FinalScore)
    (now : ℤ) (today : String) : HistoricalData :=
  let historicalGame :=
    buildHistoricalGame players batters lineupInfo gameStatus finalScore now today
  let games1 := upsertGame historicalData.games historicalGame
  let games2 := List.insertionSort (fun g1 g2 => g2.date ≤ g1.date) games1
  updateHistoricalStats
    { games := games2, stats := historicalData.stats, lastUpdated := now }

/-- `Phase` (src/types/index.ts). -/
inductive Phase where
  | setup | draft | play | live | results
deriving DecidableEq, Repr

/-- `AppState` (src/types/index.ts).  The two `Record<number, number>`
fields are modelled as JSON-style entry lists. -/
structure AppState where
  phase : Phase
  batters : List Batter
  players : List Player
  boosters : List (ℕ × ℚ)
  lineupInfo : Option LineupInfo
  gameState : String
  inningStr : String
  previousScores : List (ℕ × ℤ)
  previousTotalScore : ℤ
  savedAt : ℤ
  scoreViewingAllowed : Option Bool := none
deriving DecidableEq, Repr

/-- `loadAppState` (src/storage/index.ts lines 37-122) with the I/O made
explicit.  `stored` is the persisted value: `none` = key absent, `some
none` = present but JSON-unparseable (`JSON.parse` throws; the outer catch
returns `null` without removing), `some (some st)` = parses to `st`.
`scoreViewingAllowed` is the result of `isScoreViewingAllowed()` (an
external fetch).  `activeGamesCheck` is the outcome of the
active-games-today schedule probe: `none` = the probe threw (fail open and
restore), `some b` = it computed the truthiness `b` of
`hasActiveOrRecentGames`.  Returns `(result, store content afterwards)`.
`state.players?.[0]?.picks?.length > 0` is false when there is no first
player. -/
def loadAppState (stored : Option (Option AppState)) (now : ℤ)
    (scoreViewingAllowed : Bool) (activeGamesCheck : Option Bool) :
    Option AppState × Option (Option AppState) :=
  match stored with
  | none => (none, none)
  | some none => (none, some none)
  | some (some state) =>
      let maxAge : ℤ := 24 * 60 * 60 * 1000
      if now - state.savedAt > maxAge then
        (none, none)
      else
        let hasDrafted : Bool :=
          match state.players with
          | [] => false
          | p :: _ => decide (0 < p.picks.length)
        let isInResultsPhase : Bool :=
          decide (state.phase = .results) || decide (state.phase = .live)
        if hasDrafted && isInResultsPhase then
          if scoreViewingAllowed then (some state, some (some state))
          else (none, none)
        else
          match activeGamesCheck with
          | some false => (none, none)
          | _ => (some state, some (some state))

theorem jsRound_intCast (n : ℤ) : jsRound (n : ℚ) = n := by
  unfold jsRound
  rw [Int.floor_int_add]
  norm_num

theorem jsRound_nonneg (q : ℚ) (h : 0 ≤ q) : 0 ≤ jsRound q := by
  unfold jsRound
  exact Int.floor_nonneg.mpr (by linarith)

theorem jsRound_le_int (q : ℚ) (r : ℤ) (h : q ≤ (r : ℚ)) : jsRound q ≤ r := by
  unfold jsRound
  have hle : ⌊q + 1/2⌋ ≤ ⌊(r : ℚ) + 1/2⌋ := Int.floor_le_floor (by linarith)
  rwa [Int.floor_int_add, show ⌊(1/2 : ℚ)⌋ = 0 by norm_num, add_zero] at hle

theorem normalizeOthers_spec (remaining : ℤ) (c1 c2 : ℚ)
    (hr : 0 ≤ remaining) (h1 : 0 ≤ c1) (h2 : 0 ≤ c2) :
    0 ≤ (normalizeOthers remaining c1 c2).1 ∧
    (normalizeOthers remaining c1 c2).1 ≤ remaining ∧
    0 ≤ (normalizeOthers remaining c1 c2).2 ∧
    (normalizeOthers remaining c1 c2).2 ≤ remaining ∧
    (normalizeOthers remaining c1 c2).1 + (normalizeOthers remaining c1 c2).2
      = remaining := by
  unfold normalizeOthers
  by_cases hs : c1 + c2 ≤ 0
  · simp only [if_pos hs]
    have h0 : (0 : ℤ) ≤ ⌊(remaining : ℚ) / 2⌋ := Int.floor_nonneg.mpr (by positivity)
    have hle : ⌊(remaining : ℚ) / 2⌋ ≤ remaining := by
      have : ⌊(remaining : ℚ) / 2⌋ ≤ ⌊(remaining : ℚ)⌋ := by
        apply Int.floor_le_floor
        have : (0 : ℚ) ≤ (remaining : ℚ) := by exact_mod_cast hr
        linarith
      simpa using this
    exact ⟨h0, hle, by linarith, by linarith, by ring⟩
  · have hpos : 0 < c1 + c2 := not_le.mp hs
    have hq0 : 0 ≤ (remaining : ℚ) * c1 / (c1 + c2) := by positivity
    have hqle : (remaining : ℚ) * c1 / (c1 + c2) ≤ (remaining : ℚ) := by
      rw [div_le_iff hpos]
      have hc : c1 ≤ c1 + c2 := by linarith
      have hrq : (0 : ℚ) ≤ (remaining : ℚ) := by exact_mod_cast hr
      nlinarith
    have hn0 := jsRound_nonneg _ hq0
    have hnle := jsRound_le_int _ remaining hqle
    simp only [if_neg hs]
    exact ⟨hn0, hnle, by linarith, by linarith, by ring⟩

theorem bSet_chain_spec (bo : Boosters) (targetId o1 o2 : ℕ)
    (clamped n1 n2 : ℤ)
    (ht1 : targetId ≠ o1) (ht2 : targetId ≠ o2) (h12 : o1 ≠ o2) :
    (bSet (bSet (bSet bo (some targetId) (clamped : ℚ)) (some o1) (n1 : ℚ))
        (some o2) (n2 : ℚ)) targetId = some (clamped : ℚ) ∧
    (bSet (bSet (bSet bo (some targetId) (clamped : ℚ)) (some o1) (n1 : ℚ))
        (some o2) (n2 : ℚ)) o1 = some (n1 : ℚ) ∧
    (bSet (bSet (bSet bo (some targetId) (clamped : ℚ)) (some o1) (n1 : ℚ))
        (some o2) (n2 : ℚ)) o2 = some (n2 : ℚ) := by
  refine ⟨?_, ?_, ?_⟩ <;> simp [bSet, ht1, ht2, h12, Ne.symm h12]

theorem boosterConclusion_of (f : Boosters) (x y z : ℕ) (va vb vc : ℤ)
    (hx : f x = some (va : ℚ)) (hy : f y = some (vb : ℚ))
    (hz : f z = some (vc : ℚ))
    (ha0 : 0 ≤ va) (ha1 : va ≤ 100) (hb0 : 0 ≤ vb) (hb1 : vb ≤ 100)
    (hc0 : 0 ≤ vc) (hc1 : vc ≤ 100) (hsum : va + vb + vc = 100) :
    (f x).isSome = true ∧ (f y).isSome = true ∧ (f z).isSome = true ∧
    ((f x).getD 0).den = 1 ∧ ((f y).getD 0).den = 1 ∧
    ((f z).getD 0).den = 1 ∧
    0 ≤ (f x).getD 0 ∧ (f x).getD 0 ≤ 100 ∧
    0 ≤ (f y).getD 0 ∧ (f y).getD 0 ≤ 100 ∧
    0 ≤ (f z).getD 0 ∧ (f z).getD 0 ≤ 100 ∧
    (f x).getD 0 + (f y).getD 0 + (f z).getD 0 = 100 := by
  rw [hx, hy, hz]
  refine ⟨rfl, rfl, rfl, ?_, ?_, ?_, ?_, ?_, ?_, ?_, ?_, ?_, ?_⟩ <;>
    simp [Rat.den_intCast]
  · exact_mod_cast ha0
  · exact_mod_cast ha1
  · exact_mod_cast hb0
  · exact_mod_cast hb1
  · exact_mod_cast hc0
  · exact_mod_cast hc1
  · exact_mod_cast hsum

/-- C2: `applyBoost(basePoints, p)` returns `round(basePoints * p)` when
`basePoints > 0` and returns `basePoints` unchanged when `basePoints ≤ 0`,
for every base-points value and boost factor; the factor multiplies
positive base points directly (factor 100 gives ×100, not ×1). -/
theorem applyBoost_spec (basePoints boostPercent : ℚ) :
    (0 < basePoints →
      applyBoost basePoints boostPercent
        = (jsRound (basePoints * boostPercent) : ℚ)) ∧
    (basePoints ≤ 0 → applyBoost basePoints boostPercent = basePoints) ∧
    applyBoost 2 100 = 200 := by
  refine ⟨fun h => ?_, fun h => ?_, by norm_num [applyBoost, jsRound]⟩
  · simp [applyBoost, h]
  · simp [applyBoost, not_lt.mpr h]

theorem applyBoost_spec_witness :
    applyBoost (-50) (3/2) = -50 ∧ applyBoost 2 100 = 200 :=
  ⟨(applyBoost_spec (-50) (3/2)).2.1 (by norm_num),
   (applyBoost_spec (-50) (3/2)).2.2⟩

/-- C4: `calculateBasePoints` is the fixed linear combination of the 14
breakdown counters with weights singles=10, doubles=20, triples=30,
hr_solo=40, hr_2r=45, hr_3r=50, hr_grandSlam=80, walks=5, hbp=5,
rbi_non_hr=15, runs_non_hr=15, strikeouts=−5, gidp=−10,
fielders_choice=+2, with no clamping (a lone strikeout scores −5 < 0). -/
theorem calculateBasePoints_spec (b : ScoreBreakdown) :
    calculateBasePoints b =
      10 * b.singles + 20 * b.doubles + 30 * b.triples + 40 * b.hr_solo +
      45 * b.hr_2r + 50 * b.hr_3r + 80 * b.hr_gs + 5 * b.walks + 5 * b.hbp +
      15 * b.rbi_non_hr + 15 * b.runs_non_hr + (-5) * b.strikeouts +
      (-10) * b.gidp + 2 * b.fielders_choice ∧
    calculateBasePoints ⟨0, 0, 0, 0, 0, 0, 0, 0, 0, 0, 0, 1, 0, 0⟩ < 0 := by
  constructor
  · simp only [calculateBasePoints, PTS]
    ring
  · decide

/-- C8: `isDraftingAllowed` returns true when the game date is absent or
unparseable, and otherwise returns true exactly when `now` is strictly
before game start + 5 minutes (300000 ms). -/
theorem isDraftingAllowed_spec (t now : ℤ) :
    isDraftingAllowed none now = true ∧
    isDraftingAllowed (some none) now = true ∧
    (isDraftingAllowed (some (some t)) now = true ↔ now < t + 5 * 60 * 1000) := by
  refine ⟨rfl, rfl, ?_⟩
  simp [isDraftingAllowed]

/-- C1: for every call to `normalizeBoostersToHundred` with exactly 3
distinct pick ids, the edited id among them, any raw value (including
out-of-range), and non-negative current booster values (the data-model
invariant maintained by this very function), the returned mapping assigns
the three picked ids three integers — rationals with denominator 1 — each
in [0,100] whose sum is exactly 100. -/
theorem normalizeBoostersToHundred_spec (targetId a b c : ℕ) (rawValue : ℚ)
    (bo : Boosters)
    (hab : a ≠ b) (hac : a ≠ c) (hbc : b ≠ c)
    (hmem : targetId = a ∨ targetId = b ∨ targetId = c)
    (hnn : ∀ id : ℕ, 0 ≤ (bo id).getD 0) :
    (normalizeBoostersToHundred targetId rawValue [a, b, c] bo a).isSome = true ∧
    (normalizeBoostersToHundred targetId rawValue [a, b, c] bo b).isSome = true ∧
    (normalizeBoostersToHundred targetId rawValue [a, b, c] bo c).isSome = true ∧
    ((normalizeBoostersToHundred targetId rawValue [a, b, c] bo a).getD 0).den = 1 ∧
    ((normalizeBoostersToHundred targetId rawValue [a, b, c] bo b).getD 0).den = 1 ∧
    ((normalizeBoostersToHundred targetId rawValue [a, b, c] bo c).getD 0).den = 1 ∧
    0 ≤ (normalizeBoostersToHundred targetId rawValue [a, b, c] bo a).getD 0 ∧
    (normalizeBoostersToHundred targetId rawValue [a, b, c] bo a).getD 0 ≤ 100 ∧
    0 ≤ (normalizeBoostersToHundred targetId rawValue [a, b, c] bo b).getD 0 ∧
    (normalizeBoostersToHundred targetId rawValue [a, b, c] bo b).getD 0 ≤ 100 ∧
    0 ≤ (normalizeBoostersToHundred targetId rawValue [a, b, c] bo c).getD 0 ∧
    (normalizeBoostersToHundred targetId rawValue [a, b, c] bo c).getD 0 ≤ 100 ∧
    (normalizeBoostersToHundred targetId rawValue [a, b, c] bo a).getD 0 +
      (normalizeBoostersToHundred targetId rawValue [a, b, c] bo b).getD 0 +
      (normalizeBoostersToHundred targetId rawValue [a, b, c] bo c).getD 0 = 100 := by
  have hc0 : 0 ≤ max 0 (min 100 (jsRound rawValue)) := le_max_left _ _
  have hc100 : max 0 (min 100 (jsRound rawValue)) ≤ 100 :=
    max_le (by norm_num) (min_le_left _ _)
  have hrem : 0 ≤ 100 - max 0 (min 100 (jsRound rawValue)) := by omega
  rcases hmem with rfl | rfl | rfl
  · have hfil : List.filter (fun id => id != targetId) [targetId, b, c] = [b, c] := by
      simp [Ne.symm hab, Ne.symm hac]
    simp only [normalizeBoostersToHundred, hfil, List.getElem?_cons_zero,
      List.getElem?_cons_succ, bGetD, Option.some_bind, Option.bind_some]
    obtain ⟨hn0, hnle, hm0, hmle, hsum⟩ :=
      normalizeOthers_spec (100 - max 0 (min 100 (jsRound rawValue)))
        ((bo b).getD 0) ((bo c).getD 0) hrem (hnn b) (hnn c)
    obtain ⟨hx, hy, hz⟩ :=
      bSet_chain_spec bo targetId b c (max 0 (min 100 (jsRound rawValue)))
        (normalizeOthers (100 - max 0 (min 100 (jsRound rawValue)))
          ((bo b).getD 0) ((bo c).getD 0)).1
        (normalizeOthers (100 - max 0 (min 100 (jsRound rawValue)))
          ((bo b).getD 0) ((bo c).getD 0)).2 hab hac hbc
    exact boosterConclusion_of _ targetId b c _ _ _ hx hy hz hc0 hc100
      hn0 (by omega) hm0 (by omega) (by omega)
  · have hfil : List.filter (fun id => id != targetId) [a, targetId, c] = [a, c] := by
      simp [hab, Ne.symm hbc]
    simp only [normalizeBoostersToHundred, hfil, List.getElem?_cons_zero,
      List.getElem?_cons_succ, bGetD, Option.some_bind, Option.bind_some]
    obtain ⟨hn0, hnle, hm0, hmle, hsum⟩ :=
      normalizeOthers_spec (100 - max 0 (min 100 (jsRound rawValue)))
        ((bo a).getD 0) ((bo c).getD 0) hrem (hnn a) (hnn c)
    obtain ⟨hx, hy, hz⟩ :=
      bSet_chain_spec bo targetId a c (max 0 (min 100 (jsRound rawValue)))
        (normalizeOthers (100 - max 0 (min 100 (jsRound rawValue)))
          ((bo a).getD 0) ((bo c).getD 0)).1
        (normalizeOthers (100 - max 0 (min 100 (jsRound rawValue)))
          ((bo a).getD 0) ((bo c).getD 0)).2 (Ne.symm hab) hbc hac
    exact boosterConclusion_of _ a targetId c _ _ _ hy hx hz
      hn0 (by omega) hc0 hc100 hm0 (by omega) (by omega)
  · have hfil : List.filter (fun id => id != targetId) [a, b, targetId] = [a, b] := by
      simp [hac, hbc]
    simp only [normalizeBoostersToHundred, hfil, List.getElem?_cons_zero,
      List.getElem?_cons_succ, bGetD, Option.some_bind, Option.bind_some]
    obtain ⟨hn0, hnle, hm0, hmle, hsum⟩ :=
      normalizeOthers_spec (100 - max 0 (min 100 (jsRound rawValue)))
        ((bo a).getD 0) ((bo b).getD 0) hrem (hnn a) (hnn b)
    obtain ⟨hx, hy, hz⟩ :=
      bSet_chain_spec bo targetId a b (max 0 (min 100 (jsRound rawValue)))
        (normalizeOthers (100 - max 0 (min 100 (jsRound rawValue)))
          ((bo a).getD 0) ((bo b).getD 0)).1
        (normalizeOthers (100 - max 0 (min 100 (jsRound rawValue)))
          ((bo a).getD 0) ((bo b).getD 0)).2 (Ne.symm hac) (Ne.symm hbc) hab
    exact boosterConclusion_of _ a b targetId _ _ _ hy hz hx
      hn0 (by omega) hm0 (by omega) hc0 hc100 (by omega)

theorem normalizeBoostersToHundred_spec_witness :
    (normalizeBoostersToHundred 1 50 [1, 2, 3] (fun _ => some 30) 1).getD 0 +
      (normalizeBoostersToHundred 1 50 [1, 2, 3] (fun _ => some 30) 2).getD 0 +
      (normalizeBoostersToHundred 1 50 [1, 2, 3] (fun _ => some 30) 3).getD 0
      = 100 :=
  (normalizeBoostersToHundred_spec 1 1 2 3 50 (fun _ => some 30)
    (by decide) (by decide) (by decide) (Or.inl rfl)
    (fun id => by norm_num)).2.2.2.2.2.2.2.2.2.2.2.2

/-- C9: the `points` value returned by `buildScoreFromStatsAndPlays`
always equals `calculateBasePoints` of the breakdown returned by the same
call. -/
theorem buildScoreFromStatsAndPlays_points_consistent
    (stats : RawStats) (plays : List Play) :
    (buildScoreFromStatsAndPlays stats plays).points =
      calculateBasePoints (buildScoreFromStatsAndPlays stats plays).breakdown :=
  rfl

/-- C10: the breakdown returned by `buildScoreFromStatsAndPlays` always
has `hbp = 0` and `fielders_choice = 0`: the live feed never populates the
hit-by-pitch or fielder's-choice counters. -/
theorem buildScoreFromStatsAndPlays_hbp_fc_zero
    (stats : RawStats) (plays : List Play) :
    (buildScoreFromStatsAndPlays stats plays).breakdown.hbp = 0 ∧
    (buildScoreFromStatsAndPlays stats plays).breakdown.fielders_choice = 0 :=
  ⟨rfl, rfl⟩

/-- C3 (failing input): for stats with `homeRuns = 3`, `rbi = 4`,
`hits = 3`, the code classifies three solo home runs (credit 3 RBI), yet
returns `rbi_non_hr = 0` where the claimed
`max(0, totalRBI − RBI credited to classified HRs) = max(0, 4 − 3) = 1`:
the source multiplies the credit sum by `totalHRs` a second time
(`hrRBIs = 3 * 3 = 9`). -/
theorem buildScoreFromStatsAndPlays_rbi_non_hr_failing :
    (buildScoreFromStatsAndPlays { hits := 3, homeRuns := 3, rbi := 4 } []).breakdown.hr_solo = 3 ∧
    (buildScoreFromStatsAndPlays { hits := 3, homeRuns := 3, rbi := 4 } []).breakdown.hr_2r = 0 ∧
    (buildScoreFromStatsAndPlays { hits := 3, homeRuns := 3, rbi := 4 } []).breakdown.hr_3r = 0 ∧
    (buildScoreFromStatsAndPlays { hits := 3, homeRuns := 3, rbi := 4 } []).breakdown.hr_gs = 0 ∧
    (buildScoreFromStatsAndPlays { hits := 3, homeRuns := 3, rbi := 4 } []).breakdown.rbi_non_hr = 0 ∧
    max (0 : ℤ) (4 -
      (4 * (buildScoreFromStatsAndPlays { hits := 3, homeRuns := 3, rbi := 4 } []).breakdown.hr_gs +
       3 * (buildScoreFromStatsAndPlays { hits := 3, homeRuns := 3, rbi := 4 } []).breakdown.hr_3r +
       2 * (buildScoreFromStatsAndPlays { hits := 3, homeRuns := 3, rbi := 4 } []).breakdown.hr_2r +
       1 * (buildScoreFromStatsAndPlays { hits := 3, homeRuns := 3, rbi := 4 } []).breakdown.hr_solo)) = 1 := by
  refine ⟨?_, ?_, ?_, ?_, ?_, ?_⟩ <;>
    norm_num [buildScoreFromStatsAndPlays]

/-- C7: `loadAppState` removes the snapshot and returns `null` whenever
its age exceeds 24 hours, regardless of phase or contents, and returns
`null` (never throwing) when the stored value is absent or fails to
parse. -/
theorem loadAppState_spec (st : AppState) (now : ℤ) (sva : Bool)
    (agc : Option Bool) :
    (now - st.savedAt > 24 * 60 * 60 * 1000 →
      loadAppState (some (some st)) now sva agc = (none, none)) ∧
    loadAppState none now sva agc = (none, none) ∧
    loadAppState (some none) now sva agc = (none, some none) := by
  refine ⟨fun h => ?_, rfl, rfl⟩
  simp only [loadAppState]
  rw [if_pos h]

theorem loadAppState_spec_witness :
    loadAppState
      (some (some
        { phase := .live, batters := [], players := [], boosters := [],
          lineupInfo := none, gameState := "", inningStr := "",
          previousScores := [], previousTotalScore := 0, savedAt := 0 }))
      86400001 true (some true) = (none, none) :=
  (loadAppState_spec
      { phase := .live, batters := [], players := [], boosters := [],
        lineupInfo := none, gameState := "", inningStr := "",
        previousScores := [], previousTotalScore := 0, savedAt := 0 }
      86400001 true (some true)).1 (by norm_num)

theorem upsertGame_cons (a : HistoricalGame) (l : List HistoricalGame)
    (g : HistoricalGame) :
    upsertGame (a :: l) g =
      if a.id == g.id then g :: l else a :: upsertGame l g := by
  unfold upsertGame
  rw [List.findIdx?_cons]
  by_cases hpa : (a.id == g.id) = true
  · simp [hpa]
  · rw [if_neg hpa, if_neg (by simp [hpa])]
    cases hIdx : l.findIdx? (fun x => x.id == g.id) with
    | none => simp [hIdx]
    | some i => simp [hIdx]

theorem upsertGame_spec (l : List HistoricalGame) (g : HistoricalGame)
    (h : l.countP (fun x => x.id == g.id) ≤ 1) :
    (upsertGame l g).countP (fun x => x.id == g.id) = 1 ∧
    ∀ x ∈ upsertGame l g, x.id = g.id → x = g := by
  induction l with
  | nil =>
      constructor
      · simp [upsertGame, List.countP_cons]
      · intro x hx hid
        simp only [upsertGame, List.findIdx?_nil, List.nil_append,
          List.mem_singleton] at hx
        exact hx
  | cons a t ih =>
      rw [upsertGame_cons]
      by_cases hpa : (a.id == g.id) = true
      · rw [if_pos hpa]
        have hcount : t.countP (fun x => x.id == g.id) = 0 := by
          rw [List.countP_cons_of_pos (fun x => x.id == g.id) t hpa] at h
          omega
        have hnone : ∀ x ∈ t, ¬ (x.id == g.id) = true :=
          List.countP_eq_zero.mp hcount
        constructor
        · rw [List.countP_cons_of_pos (fun x => x.id == g.id) t (by simp), hcount]
        · intro x hx hid
          rcases List.mem_cons.mp hx with rfl | hmem
          · rfl
          · exact absurd (beq_iff_eq.mpr hid) (hnone x hmem)
      · rw [if_neg hpa]
        have h' : t.countP (fun x => x.id == g.id) ≤ 1 := by
          rw [List.countP_cons_of_neg (fun x => x.id == g.id) t hpa] at h
          exact h
        obtain ⟨ihc, ihm⟩ := ih h'
        constructor
        · rw [List.countP_cons_of_neg (fun x => x.id == g.id) (upsertGame t g) hpa, ihc]
        · intro x hx hid
          rcases List.mem_cons.mp hx with rfl | hmem
          · exact absurd (beq_iff_eq.mpr hid) hpa
          · exact ihm x hmem hid

theorem updateHistoricalStats_games (d : HistoricalData) :
    (updateHistoricalStats d).games = d.games := by
  unfold updateHistoricalStats
  split <;> rfl

/-- C6: `addGameToHistory` upserts by game id: two successive calls whose
`gamePk` and date produce the same id leave exactly one game entry with
that id in the stored games list, and that entry is the game built from
the second call's data.  The hypothesis `h0` is the store invariant that
ids were unique before (an already-duplicated store stays duplicated). -/
theorem addGameToHistory_upsert_by_id
    (d0 : HistoricalData)
    (players1 players2 : List Player) (batters1 batters2 : List Batter)
    (li1 li2 : LineupInfo) (gs1 gs2 : String) (fs1 fs2 : Option FinalScore)
    (now1 now2 : ℤ) (today1 today2 : String)
    (hid : computedGameId li1 today1 = computedGameId li2 today2)
    (h0 : d0.games.countP (fun x => x.id == computedGameId li2 today2) ≤ 1) :
    ((addGameToHistory
        (addGameToHistory d0 players1 batters1 li1 gs1 fs1 now1 today1)
        players2 batters2 li2 gs2 fs2 now2 today2).games.countP
      (fun x => x.id == computedGameId li2 today2)) = 1 ∧
    ∀ x ∈ (addGameToHistory
        (addGameToHistory d0 players1 batters1 li1 gs1 fs1 now1 today1)
        players2 batters2 li2 gs2 fs2 now2 today2).games,
      x.id = computedGameId li2 today2 →
      x = buildHistoricalGame players2 batters2 li2 gs2 fs2 now2 today2 := by
  have hd1 : (addGameToHistory d0 players1 batters1 li1 gs1 fs1 now1 today1).games
      = List.insertionSort (fun g1 g2 => g2.date ≤ g1.date)
          (upsertGame d0.games
            (buildHistoricalGame players1 batters1 li1 gs1 fs1 now1 today1)) := by
    simp only [addGameToHistory, updateHistoricalStats_games]
  have hd2 : (addGameToHistory
        (addGameToHistory d0 players1 batters1 li1 gs1 fs1 now1 today1)
        players2 batters2 li2 gs2 fs2 now2 today2).games
      = List.insertionSort (fun g1 g2 => g2.date ≤ g1.date)
          (upsertGame
            (addGameToHistory d0 players1 batters1 li1 gs1 fs1 now1 today1).games
            (buildHistoricalGame players2 batters2 li2 gs2 fs2 now2 today2)) := by
    simp only [addGameToHistory, updateHistoricalStats_games]
  have hg1id : (buildHistoricalGame players1 batters1 li1 gs1 fs1 now1 today1).id
      = computedGameId li2 today2 := hid
  have h0' : d0.games.countP
      (fun x => x.id == (buildHistoricalGame players1 batters1 li1 gs1 fs1 now1 today1).id) ≤ 1 := by
    rw [hg1id]; exact h0
  obtain ⟨hc1, _⟩ :=
    upsertGame_spec d0.games
      (buildHistoricalGame players1 batters1 li1 gs1 fs1 now1 today1) h0'
  have hd1le : (addGameToHistory d0 players1 batters1 li1 gs1 fs1 now1 today1).games.countP
      (fun x => x.id ==
        (buildHistoricalGame players2 batters2 li2 gs2 fs2 now2 today2).id) ≤ 1 := by
    rw [hd1, (List.perm_insertionSort _ _).countP_eq]
    have : (fun (x : HistoricalGame) => x.id ==
          (buildHistoricalGame players2 batters2 li2 gs2 fs2 now2 today2).id)
        = (fun x => x.id ==
          (buildHistoricalGame players1 batters1 li1 gs1 fs1 now1 today1).id) := by
      rw [hg1id]; rfl
    rw [this, hc1]
  obtain ⟨hc2, hm2⟩ :=
    upsertGame_spec
      (addGameToHistory d0 players1 batters1 li1 gs1 fs1 now1 today1).games
      (buildHistoricalGame players2 batters2 li2 gs2 fs2 now2 today2) hd1le
  constructor
  · rw [hd2, (List.perm_insertionSort _ _).countP_eq]
    exact hc2
  · intro x hx hxid
    rw [hd2] at hx
    exact hm2 x ((List.perm_insertionSort _ _).mem_iff.mp hx) hxid

theorem addGameToHistory_upsert_by_id_witness :
    ((addGameToHistory
        (addGameToHistory
          { games := [],
            stats := { totalGames := 0, averageScore := 0, bestScore := 0 },
            lastUpdated := 0 }
          [{ id := 1, name := "You", picks := [1, 2, 3], score := some 155 }]
          []
          { gamePk := 12345, opponent := "Guardians", side := .home,
            gameDate := some "2025-08-31T00:10:00Z" }
          "Live" none 0 "2025-08-31")
        [{ id := 1, name := "You", picks := [1, 2, 3], score := some 200 }]
        []
        { gamePk := 12345, opponent := "Guardians", side := .home,
          gameDate := some "2025-08-31T00:10:00Z" }
        "Final" none 0 "2025-08-31").games.countP
      (fun x => x.id == computedGameId
        { gamePk := 12345, opponent := "Guardians", side := .home,
          gameDate := some "2025-08-31T00:10:00Z" } "2025-08-31")) = 1 :=
  (addGameToHistory_upsert_by_id _ _ _ _ _ _ _ _ _ _ _ _ _ _ _ rfl (by decide)).1

theorem best_foldl_noimprove (t : List (ℤ × String)) (acc : ℤ × Option String)
    (h : ∀ q ∈ t, q.1 ≤ acc.1) :
    t.foldl (fun a p => if a.1 < p.1 then (p.1, some p.2) else a) acc = acc := by
  induction t generalizing acc with
  | nil => rfl
  | cons q t ih =>
      rw [List.foldl_cons]
      have hq : ¬ acc.1 < q.1 := not_lt.mpr (h q (by simp))
      rw [if_neg hq]
      exact ih acc (fun p hp => h p (by simp [hp]))

theorem best_foldl_snd (l : List (ℤ × String)) (M : ℤ) :
    ∀ (b0 : ℤ) (i0 : Option String),
    (∀ p ∈ l, p.1 ≤ M) → b0 < M → (∃ p ∈ l, p.1 = M) →
    (l.foldl (fun a p => if a.1 < p.1 then (p.1, some p.2) else a) (b0, i0)).1 = M ∧
    (l.foldl (fun a p => if a.1 < p.1 then (p.1, some p.2) else a) (b0, i0)).2
      = (l.find? (fun p => decide (M ≤ p.1))).map (fun p => p.2) := by
  induction l with
  | nil =>
      intro b0 i0 _ _ hex
      simp at hex
  | cons p t ih =>
      intro b0 i0 hub hb0 hex
      rw [List.foldl_cons]
      dsimp only
      by_cases hM : M ≤ p.1
      · have hpM : p.1 = M := le_antisymm (hub p (by simp)) hM
        have hlt : b0 < p.1 := hpM ▸ hb0
        rw [if_pos hlt]
        have hstay := best_foldl_noimprove t (p.1, some p.2)
          (fun q hq => by
            have := hub q (by simp [hq])
            simpa [hpM] using this)
        rw [hstay]
        constructor
        · exact hpM
        · rw [List.find?_cons_of_pos _ (by simpa using hM)]
          rfl
      · have hplt : p.1 < M := lt_of_not_le hM
        have hex' : ∃ q ∈ t, q.1 = M := by
          rcases hex with ⟨q, hq, hqM⟩
          rcases List.mem_cons.mp hq with rfl | hmem
          · exact absurd hqM (by omega)
          · exact ⟨q, hmem, hqM⟩
        have hub' : ∀ q ∈ t, q.1 ≤ M := fun q hq => hub q (by simp [hq])
        rw [List.find?_cons_of_neg _ (by simpa using hM)]
        by_cases hstep : b0 < p.1
        · rw [if_pos hstep]
          exact ih p.1 (some p.2) hub' hplt hex'
        · rw [if_neg hstep]
          exact ih b0 i0 hub' hb0 hex'

theorem bestFold_eq_pairs (games : List HistoricalGame) :
    ∀ acc : ℤ × Option String,
    games.foldl
      (fun acc g =>
        g.players.foldl
          (fun acc2 p =>
            if acc2.1 < p.totalScore then (p.totalScore, some g.id) else acc2)
          acc)
      acc
    = (games.flatMap (fun g => g.players.map (fun p => (p.totalScore, g.id)))).foldl
        (fun a p => if a.1 < p.1 then (p.1, some p.2) else a) acc := by
  induction games with
  | nil => intro acc; rfl
  | cons g t ih =>
      intro acc
      rw [List.foldl_cons, List.flatMap_cons, List.foldl_append, List.foldl_map, ih]

theorem find?_congr_mem {α : Type} (l : List α) (p q : α → Bool)
    (h : ∀ a ∈ l, p a = q a) : l.find? p = l.find? q := by
  induction l with
  | nil => rfl
  | cons a t ih =>
      have ha := h a (by simp)
      cases hq : q a
      · rw [List.find?_cons_of_neg _ (by simp [ha, hq]),
          List.find?_cons_of_neg _ (by simp [hq]),
          ih (fun x hx => h x (by simp [hx]))]
      · rw [List.find?_cons_of_pos _ (by simp [ha, hq]),
          List.find?_cons_of_pos _ (by simp [hq])]

theorem find?_pairs_games (games : List HistoricalGame) (M : ℤ) :
    ((games.flatMap (fun g => g.players.map (fun p => (p.totalScore, g.id)))).find?
        (fun p => decide (M ≤ p.1))).map (fun p => p.2)
      = (games.find? (fun g => g.players.any (fun p => decide (M ≤ p.totalScore)))).map
          (fun g => g.id) := by
  induction games with
  | nil => rfl
  | cons g t ih =>
      rw [List.flatMap_cons, List.find?_append]
      by_cases hg : g.players.any (fun p => decide (M ≤ p.totalScore)) = true
      · have hfind : (g.players.find? (fun p => decide (M ≤ p.totalScore))).isSome := by
          rw [List.find?_isSome]
          obtain ⟨p, hp, hq⟩ := List.any_eq_true.mp hg
          exact ⟨p, hp, hq⟩
        obtain ⟨p0, hp0⟩ := Option.isSome_iff_exists.mp hfind
        have hblock : (g.players.map (fun p => (p.totalScore, g.id))).find?
            (fun p => decide (M ≤ p.1)) = some (p0.totalScore, g.id) := by
          rw [List.find?_map]
          have hcomp :
              ((fun (pr : ℤ × String) => decide (M ≤ pr.1)) ∘
                (fun p => (p.totalScore, g.id)))
              = (fun (p : HistoricalPlayer) => decide (M ≤ p.totalScore)) := rfl
          rw [hcomp, hp0]
          rfl
        rw [hblock, List.find?_cons_of_pos _ (by exact hg)]
        rfl
      · have hnone : (g.players.map (fun p => (p.totalScore, g.id))).find?
            (fun p => decide (M ≤ p.1)) = none := by
          rw [List.find?_eq_none]
          intro x hx
          obtain ⟨p, hp, rfl⟩ := List.mem_map.mp hx
          intro hcon
          exact hg (List.any_eq_true.mpr ⟨p, hp, by simpa using hcon⟩)
        rw [hnone, List.find?_cons_of_neg _ (by exact hg)]
        simpa using ih

theorem any_score_pred (players : List HistoricalPlayer) (M : ℤ)
    (hub : ∀ p ∈ players, p.totalScore ≤ M) :
    players.any (fun p => decide (M ≤ p.totalScore))
      = players.any (fun p => decide (p.totalScore = M)) := by
  induction players with
  | nil => rfl
  | cons p t ih =>
      simp only [List.any_cons]
      rw [ih (fun q hq => hub q (by simp [hq]))]
      congr 1
      have hple := hub p (by simp)
      by_cases hpM : p.totalScore = M
      · simp [hpM]
      · have hnot : ¬ (M ≤ p.totalScore) := by omega
        simp [hpM, hnot]

/-- C5 (amended): after recomputation over a non-empty games list whose
player totals are bounded by `M` with `M` attained, `stats.bestScore`
equals `M` and `stats.bestGame` is the id of the first game reaching `M`
in iteration order — provided `0 < M`; when the maximum `M` is zero or
negative the accumulator never updates, so `bestScore` is `0` and
`bestGame` stays unset. -/
theorem updateHistoricalStats_best (d : HistoricalData) (M : ℤ)
    (hne : ¬ d.games = [])
    (hub : ∀ g ∈ d.games, ∀ p ∈ g.players, p.totalScore ≤ M)
    (hex : ∃ g ∈ d.games, ∃ p ∈ g.players, p.totalScore = M) :
    (0 < M →
      (updateHistoricalStats d).stats.bestScore = M ∧
      (updateHistoricalStats d).stats.bestGame =
        (d.games.find? (fun g =>
          g.players.any (fun p => decide (p.totalScore = M)))).map
          (fun g => g.id)) ∧
    (M ≤ 0 →
      (updateHistoricalStats d).stats.bestScore = 0 ∧
      (updateHistoricalStats d).stats.bestGame = none) := by
  have hstats : (updateHistoricalStats d).stats.bestScore = (bestFold d.games).1 ∧
      (updateHistoricalStats d).stats.bestGame = (bestFold d.games).2 := by
    unfold updateHistoricalStats
    rw [if_neg hne]
    exact ⟨rfl, rfl⟩
  have hfold : bestFold d.games
      = (d.games.flatMap (fun g => g.players.map (fun p => (p.totalScore, g.id)))).foldl
          (fun a p => if a.1 < p.1 then (p.1, some p.2) else a) (0, none) :=
    bestFold_eq_pairs d.games (0, none)
  have hubP : ∀ pr ∈ d.games.flatMap
      (fun g => g.players.map (fun p => (p.totalScore, g.id))), pr.1 ≤ M := by
    intro pr hpr
    obtain ⟨g, hg, hpr2⟩ := List.mem_flatMap.mp hpr
    obtain ⟨p, hp, rfl⟩ := List.mem_map.mp hpr2
    exact hub g hg p hp
  constructor
  · intro hM
    have hexP : ∃ pr ∈ d.games.flatMap
        (fun g => g.players.map (fun p => (p.totalScore, g.id))), pr.1 = M := by
      obtain ⟨g, hg, p, hp, hpM⟩ := hex
      exact ⟨(p.totalScore, g.id),
        List.mem_flatMap.mpr ⟨g, hg, List.mem_map.mpr ⟨p, hp, rfl⟩⟩, hpM⟩
    obtain ⟨hfst, hsnd⟩ := best_foldl_snd
      (d.games.flatMap (fun g => g.players.map (fun p => (p.totalScore, g.id))))
      M 0 none hubP hM hexP
    refine ⟨?_, ?_⟩
    · rw [hstats.1, hfold]; exact hfst
    · rw [hstats.2, hfold, hsnd, find?_pairs_games]
      congr 1
      apply find?_congr_mem
      intro g hg
      exact any_score_pred g.players M (hub g hg)
  · intro hM
    have hle : ∀ pr ∈ d.games.flatMap
        (fun g => g.players.map (fun p => (p.totalScore, g.id))), pr.1 ≤ (0 : ℤ) :=
      fun pr hpr => le_trans (hubP pr hpr) hM
    have hstay := best_foldl_noimprove
      (d.games.flatMap (fun g => g.players.map (fun p => (p.totalScore, g.id))))
      (0, none) hle
    refine ⟨?_, ?_⟩
    · rw [hstats.1, hfold, hstay]
    · rw [hstats.2, hfold, hstay]

theorem updateHistoricalStats_best_witness :
    (updateHistoricalStats
      { games := [{ id := "12345_2025-08-31", date := "2025-08-31",
                    gamePk := 12345, opponent := "Guardians", side := .home,
                    gameStatus := "Final",
                    players := [{ name := "You", picks := [], totalScore := 155 }],
                    completedAt := 0 }],
        stats := { totalGames := 0, averageScore := 0, bestScore := 0 },
        lastUpdated := 0 }).stats.bestScore = 155 :=
  ((updateHistoricalStats_best
      { games := [{ id := "12345_2025-08-31", date := "2025-08-31",
                    gamePk := 12345, opponent := "Guardians", side := .home,
                    gameStatus := "Final",
                    players := [{ name := "You", picks := [], totalScore := 155 }],
                    completedAt := 0 }],
        stats := { totalGames := 0, averageScore := 0, bestScore := 0 },
        lastUpdated := 0 } 155
      (by decide) (by decide) (by decide)).1 (by norm_num)).1

/-- C5 (counterexample to the claim as stated): one game `"g1"` whose only
player total is `-5`: the maximum totalScore is `-5`, yet the recomputed
`bestScore` is `0` (not `-5`) and `bestGame` is unset (not `"g1"`). -/
theorem updateHistoricalStats_best_counterexample :
    allPlayerScores
        [{ id := "g1", date := "2025-08-31", gamePk := 1, opponent := "A",
           side := Side.home, gameStatus := "Final",
           players := [{ name := "You", picks := [], totalScore := -5 }],
           completedAt := 0 }] = [-5] ∧
    (updateHistoricalStats
      { games := [{ id := "g1", date := "2025-08-31", gamePk := 1, opponent := "A",
                    side := Side.home, gameStatus := "Final",
                    players := [{ name := "You", picks := [], totalScore := -5 }],
                    completedAt := 0 }],
        stats := { totalGames := 0, averageScore := 0, bestScore := 0 },
        lastUpdated := 0 }).stats.bestScore = 0 ∧
    (updateHistoricalStats
      { games := [{ id := "g1", date := "2025-08-31", gamePk := 1, opponent := "A",
                    side := Side.home, gameStatus := "Final",
                    players := [{ name := "You", picks := [], totalScore := -5 }],
                    completedAt := 0 }],
        stats := { totalGames := 0, averageScore := 0, bestScore := 0 },
        lastUpdated := 0 }).stats.bestGame = none := by
  refine ⟨rfl, ?_, ?_⟩ <;> decide
